import Mathlib

/-!
Shallow embedding of the scheduler in
src/tfg-audio/dll/gm_audio_api/gm_audio_api.cpp.

Doubles are modelled as rational numbers, wall clock instants as a rational
parameter `now` supplied to every operation that reads the clock, and the
opaque `ma_sound` pointers as natural numbers handed out by an allocation
counter `nextHandle` kept in the state.  Calls into miniaudio that only have
external effects (start, stop, seek, uninit, spawning a voice) are recorded in
an `Action` trace.  Success or failure of `ma_sound_init_from_file` is an
input of each operation (a `Bool`, or a `Nat → Bool` oracle indexed by the
allocation counter when several sounds may be created in one call).  The
regex based extraction helpers of the source are modelled by their parsed
results, handed to `gm_audio_song_load_file` as a `SongDefParse` value.
-/

namespace GmAudio

/-- The floating point tolerance 1e-6 used throughout the scheduler. -/
def eps : ℚ := 1 / 1000000

/-- The 1e-9 threshold below which a note duration schedules no pending stop. -/
def durEps : ℚ := 1 / 1000000000

/-- Identity of one ma_sound allocation (the pointer value, abstracted). -/
abbrev Handle := Nat

/-- Calls made against the external miniaudio playback primitive. -/
inductive Action where
  | seekStart (h : Handle)
  | stopSound (h : Handle)
  | uninitFree (h : Handle)
  | spawnVoice (h : Handle)
deriving DecidableEq

/-- gTransport: bpm, playing flag, accumulated beat and anchor instant. -/
structure Transport where
  playing : Bool
  bpm : ℚ
  baseBeat : ℚ
  startTime : ℚ
deriving DecidableEq

/-- transport_get_beat_unlocked: baseBeat while stopped, otherwise
baseBeat plus elapsed time times bpm over 60. -/
def transport_get_beat_unlocked (t : Transport) (now : ℚ) : ℚ :=
  if t.playing then t.baseBeat + (now - t.startTime) * (t.bpm / 60) else t.baseBeat

/-- The path field of a SongEvent.  The source stores a string that is either
a plain file path (fixed clip) or the metadata text file|NOTE:n|BASE:b|TUN:t
assembled by gm_audio_song_load_file and parsed back inside the tick; the
embedding keeps that round-tripped data in structured form. -/
inductive EvPath where
  | clip (file : String)
  | note (file : String) (name : String) (baseNote : ℤ) (tuningHz : ℚ)
deriving DecidableEq

structure ActiveVoice where
  sound : Option Handle
  id : ℕ
deriving DecidableEq

structure PendingStop where
  voice : Option Handle
  endBeat : ℚ
deriving DecidableEq

structure PendingLaunch where
  id : ℕ
  targetBeat : ℚ
deriving DecidableEq

structure SongEvent where
  path : EvPath
  sound : Option Handle
  offsetBeat : ℚ
  nextBeat : ℚ
  dur : ℚ
  vel : ℚ
  active : Bool
deriving DecidableEq

structure Song where
  loaded : Bool
  loop : Bool
  beatsPerBar : ℤ
  bars : ℤ
  startBeat : ℚ
  events : List SongEvent
deriving DecidableEq

/-- A default constructed Song (the member initializers of the source struct). -/
def songDefault : Song :=
  { loaded := false, loop := false, beatsPerBar := 4, bars := 1, startBeat := 0, events := [] }

/-- The whole global state of the DLL. -/
structure EngineState where
  engineIniciado : Bool
  sounds : List (ℕ × Handle)
  pausedFrame : List (ℕ × ℕ)
  nextId : ℕ
  nextHandle : ℕ
  queue : List PendingLaunch
  activeVoices : List ActiveVoice
  pendingStops : List PendingStop
  pendingDelete : List Handle
  transport : Transport
  song : Song
deriving DecidableEq

/-- Lookup in the gSounds unordered map, represented as an association list. -/
def lookupSound (sounds : List (ℕ × Handle)) (id : ℕ) : Option Handle :=
  match sounds with
  | [] => none
  | (k, h) :: rest => if k = id then some h else lookupSound rest id

/-- Erase a key from the gSounds association list. -/
def eraseSound (sounds : List (ℕ × Handle)) (id : ℕ) : List (ℕ × Handle) :=
  match sounds with
  | [] => []
  | (k, h) :: rest => if k = id then rest else (k, h) :: eraseSound rest id

/-- The static initial state of the DLL globals. -/
def initialState : EngineState :=
  { engineIniciado := false, sounds := [], pausedFrame := [], nextId := 1, nextHandle := 0,
    queue := [], activeVoices := [], pendingStops := [], pendingDelete := [],
    transport := { playing := false, bpm := 120, baseBeat := 0, startTime := 0 },
    song := songDefault }

/-- gm_audio_set_tempo: reject a non positive bpm, otherwise capture the beat
under the old tempo, store the new one and re-anchor.  The source takes the
global lock but never checks gEngineIniciado. -/
def gm_audio_set_tempo (st : EngineState) (bpm now : ℚ) : ℚ × EngineState :=
  if bpm ≤ 0 then (0, st)
  else
    let current := transport_get_beat_unlocked st.transport now
    if st.transport.playing then
      (1, { st with transport :=
            { st.transport with bpm := bpm, baseBeat := current, startTime := now } })
    else
      (1, { st with transport := { st.transport with bpm := bpm, baseBeat := current } })

/-- gm_audio_get_beat_position. -/
def gm_audio_get_beat_position (st : EngineState) (now : ℚ) : ℚ :=
  transport_get_beat_unlocked st.transport now

/-- gm_audio_transport_stop: reset the clock, drop the quantized queue, stop
and schedule deletion of every pending-stop voice and every active voice, and
rearm a loaded song to its origin. -/
def gm_audio_transport_stop (st : EngineState) : ℚ × EngineState × List Action :=
  if ¬ st.engineIniciado then (0, st, [])
  else
    let stopVoices := st.pendingStops.filterMap (fun ps => ps.voice)
    let activeSounds := st.activeVoices.filterMap (fun av => av.sound)
    let song1 :=
      if st.song.loaded then
        { st.song with
          startBeat := 0,
          events := st.song.events.map (fun ev =>
            { ev with active := true, nextBeat := ev.offsetBeat }) }
      else st.song
    (1, { st with
          transport := { st.transport with playing := false, baseBeat := 0 },
          queue := [],
          pendingStops := [], activeVoices := [],
          pendingDelete := st.pendingDelete ++ stopVoices ++ activeSounds,
          song := song1 },
     stopVoices.map Action.stopSound ++ activeSounds.map Action.stopSound)

/-- gm_audio_song_stop: early success when no song is loaded (no
gEngineIniciado check in the source); otherwise stop every event sound,
deactivate every event, and stop plus schedule deletion of every pending-stop
voice and every active voice. -/
def gm_audio_song_stop (st : EngineState) : ℚ × EngineState × List Action :=
  if ¬ st.song.loaded then (1, st, [])
  else
    let evActs := st.song.events.filterMap (fun ev => ev.sound.map Action.stopSound)
    let stopVoices := st.pendingStops.filterMap (fun ps => ps.voice)
    let activeSounds := st.activeVoices.filterMap (fun av => av.sound)
    (1, { st with
          song := { st.song with events := st.song.events.map (fun ev =>
            { ev with active := false, nextBeat := 0 }) },
          pendingStops := [], activeVoices := [],
          pendingDelete := st.pendingDelete ++ stopVoices ++ activeSounds },
     evActs ++ stopVoices.map Action.stopSound ++ activeSounds.map Action.stopSound)

/-- gm_audio_song_set_loop: fails when no song is loaded. -/
def gm_audio_song_set_loop (st : EngineState) (flag : ℚ) : ℚ × EngineState :=
  if ¬ st.song.loaded then (0, st)
  else (1, { st with song := { st.song with loop := if flag = 0 then false else true } })

/-- gm_audio_play_on_beat: normalize a non positive quantum to 1, create the
sound (initOk tells whether ma_sound_init_from_file succeeds), register it in
gSounds, and enqueue the launch at the next grid multiple. -/
def gm_audio_play_on_beat (st : EngineState) (path : Option String) (quant now : ℚ)
    (initOk : Bool) : ℚ × EngineState :=
  if ¬ st.engineIniciado ∨ path = none then (0, st)
  else
    let q := if quant ≤ 0 then 1 else quant
    if ¬ initOk then (0, { st with nextHandle := st.nextHandle + 1 })
    else
      let h := st.nextHandle
      let id := st.nextId
      let nowBeat := transport_get_beat_unlocked st.transport now
      let next : ℚ := ((⌈nowBeat / q⌉ : ℤ) : ℚ) * q
      ((id : ℚ),
       { st with
         nextHandle := h + 1, nextId := id + 1,
         sounds := st.sounds ++ [(id, h)],
         pausedFrame := st.pausedFrame.filter (fun p => decide (p.1 ≠ id)),
         queue := st.queue ++ [{ id := id, targetBeat := next }] })

/-- gm_audio_stop: detach a basic-playback sound (the source never checks
gEngineIniciado here), stop it and schedule its deferred deletion. -/
def gm_audio_stop (st : EngineState) (id : ℕ) : ℚ × EngineState × List Action :=
  match lookupSound st.sounds id with
  | none => (0, st, [])
  | some h =>
    (1, { st with
          sounds := eraseSound st.sounds id,
          pendingDelete := st.pendingDelete ++ [h],
          pausedFrame := st.pausedFrame.filter (fun p => decide (p.1 ≠ id)) },
     [Action.stopSound h])

/-- The quantized queue scan of gm_audio_transport_tick: release every due
entry, seeking and starting its sound only when the id is still present in
gSounds, and keep the rest. -/
def processQueue (beat : ℚ) (sounds : List (ℕ × Handle)) :
    List PendingLaunch → List PendingLaunch × List Action
  | [] => ([], [])
  | e :: rest =>
    if e.targetBeat ≤ beat + eps then
      let fire : List Action :=
        match lookupSound sounds e.id with
        | some h => [Action.seekStart h]
        | none => []
      let r := processQueue beat sounds rest
      (r.1, fire ++ r.2)
    else
      let r := processQueue beat sounds rest
      (e :: r.1, r.2)

/-- The pending-stop scan of gm_audio_transport_tick: a due entry stops its
voice, schedules its deferred deletion, and removes every active voice holding
the same pointer. -/
def processStops (beat : ℚ) :
    List PendingStop → List ActiveVoice → List Handle → List Action →
    List PendingStop × List ActiveVoice × List Handle × List Action
  | [], av, pd, acts => ([], av, pd, acts)
  | ps :: rest, av, pd, acts =>
    if ps.endBeat ≤ beat + eps then
      match ps.voice with
      | some v =>
          processStops beat rest (av.filter (fun a => decide (a.sound ≠ some v))) (pd ++ [v])
            (acts ++ [Action.stopSound v])
      | none => processStops beat rest av pd acts
    else
      let r := processStops beat rest av pd acts
      (ps :: r.1, r.2.1, r.2.2.1, r.2.2.2)

/-- Mutable context threaded through the song event scan of the tick. -/
structure TickCtx where
  activeVoices : List ActiveVoice
  pendingStops : List PendingStop
  nextHandle : ℕ
  nextId : ℕ
  actions : List Action
deriving DecidableEq

/-- The note base table of note_name_to_midi. -/
def noteBase (s : String) : Option ℤ :=
  if s = "C" then some 0 else if s = "C#" then some 1 else if s = "DB" then some 1
  else if s = "D" then some 2 else if s = "D#" then some 3 else if s = "EB" then some 3
  else if s = "E" then some 4 else if s = "F" then some 5 else if s = "F#" then some 6
  else if s = "GB" then some 6 else if s = "G" then some 7 else if s = "G#" then some 8
  else if s = "AB" then some 8 else if s = "A" then some 9 else if s = "A#" then some 10
  else if s = "BB" then some 10 else if s = "B" then some 11 else none

/-- Split a note string the way note_name_to_midi does: digits and minus signs
go to the octave part, everything else is upper-cased into the note part. -/
def splitNoteChars : List Char → List Char × List Char
  | [] => ([], [])
  | c :: rest =>
    let r := splitNoteChars rest
    if (('0' ≤ c ∧ c ≤ '9') ∨ c = '-') then (r.1, c :: r.2) else (c.toUpper :: r.1, r.2)

/-- Integer prefix parse in the style of std::stoi: optional sign then leading
digits; none when no digit is found (the source would raise from std::stoi
there, which this model folds into the -1 failure result of the caller). -/
def cppStoi (s : String) : Option ℤ :=
  match s.data with
  | [] => none
  | c :: rest =>
    let signDigits : Bool × List Char :=
      if c = '-' then (true, rest) else if c = '+' then (false, rest) else (false, c :: rest)
    let digits := signDigits.2.takeWhile (fun d => decide ('0' ≤ d ∧ d ≤ '9'))
    if digits = [] then none
    else
      let v : ℤ := digits.foldl (fun acc d => acc * 10 + ((d.toNat - Char.toNat '0' : ℕ) : ℤ)) 0
      some (if signDigits.1 then -v else v)

/-- note_name_to_midi: -1 on any malformed input, else 12 * (octave + 1) plus
the semitone index of the note name. -/
def note_name_to_midi (note : String) : ℤ :=
  if note = "" then -1
  else
    let split := splitNoteChars note.data
    if split.1 = [] ∨ split.2 = [] then -1
    else
      match noteBase (String.mk split.1) with
      | none => -1
      | some b =>
        match cppStoi (String.mk split.2) with
        | none => -1
        | some octave => 12 * (octave + 1) + b

/-- One firing of a song event inside the tick: a fixed clip is seeked to its
start and restarted; a note event resolves its midi value and, when the voice
creation succeeds (oracle io at the consumed allocation index), spawns a new
active voice and, for a positive duration, a pending stop. -/
def fireEvent (io : ℕ → Bool) (beat : ℚ) (ev : SongEvent) (σ : TickCtx) : TickCtx :=
  match ev.sound with
  | some h => { σ with actions := σ.actions ++ [Action.seekStart h] }
  | none =>
    match ev.path with
    | EvPath.clip _ => σ
    | EvPath.note _ name _baseNote _ =>
      let midi := note_name_to_midi name
      if 0 ≤ midi then
        let v := σ.nextHandle
        if io v then
          let σ1 := { σ with
                      nextHandle := v + 1,
                      activeVoices := σ.activeVoices ++ [{ sound := some v, id := σ.nextId }],
                      nextId := σ.nextId + 1,
                      actions := σ.actions ++ [Action.spawnVoice v] }
          if durEps < ev.dur then
            { σ1 with pendingStops := σ1.pendingStops ++ [{ voice := some v, endBeat := beat + ev.dur }] }
          else σ1
        else { σ with nextHandle := v + 1 }
      else σ

/-- The catch-up while loop run on one active song event: fire while the beat
has reached the next scheduled instant, advance by beatsPerBar after each
firing, and deactivate (breaking the loop) when a non looping song has run
past its length.  The fuel argument bounds the number of iterations; the
source loop terminates because beatsPerBar is at least 1. -/
def songEventWhile (io : ℕ → Bool) (beat : ℚ) (bpb : ℤ) (loopFlag : Bool)
    (startBeat songLen : ℚ) : ℕ → SongEvent → TickCtx → SongEvent × TickCtx
  | 0, ev, σ => (ev, σ)
  | fuel + 1, ev, σ =>
    if ev.nextBeat ≤ beat + eps then
      let σ1 := fireEvent io beat ev σ
      let ev1 : SongEvent := { ev with nextBeat := ev.nextBeat + (bpb : ℚ) }
      if ¬ loopFlag ∧ songLen + eps ≤ ev1.nextBeat - startBeat then
        ({ ev1 with active := false }, σ1)
      else
        songEventWhile io beat bpb loopFlag startBeat songLen fuel ev1 σ1
    else (ev, σ)

/-- The song event scan: every active event runs its catch-up loop, inactive
events are skipped untouched. -/
def processEvents (io : ℕ → Bool) (beat : ℚ) (bpb : ℤ) (loopFlag : Bool)
    (startBeat songLen : ℚ) (fuel : ℕ) :
    List SongEvent → TickCtx → List SongEvent × TickCtx
  | [], σ => ([], σ)
  | ev :: rest, σ =>
    if ev.active then
      let r1 := songEventWhile io beat bpb loopFlag startBeat songLen fuel ev σ
      let r2 := processEvents io beat bpb loopFlag startBeat songLen fuel rest r1.2
      (r1.1 :: r2.1, r2.2)
    else
      let r2 := processEvents io beat bpb loopFlag startBeat songLen fuel rest σ
      (ev :: r2.1, r2.2)

/-- The quantized queue phase of the tick, as a state transformer. -/
def tickQueuePhase (beat : ℚ) (st : EngineState) : EngineState × List Action :=
  let r := processQueue beat st.sounds st.queue
  ({ st with queue := r.1 }, r.2)

/-- The song phase of the tick: nothing happens unless a song is loaded;
otherwise resolve due pending stops, then scan the events. -/
def tickSongPhase (io : ℕ → Bool) (fuel : ℕ) (beat : ℚ) (st : EngineState) :
    EngineState × List Action :=
  if st.song.loaded then
    let songLen : ℚ := (st.song.beatsPerBar : ℚ) * (st.song.bars : ℚ)
    let rs := processStops beat st.pendingStops st.activeVoices st.pendingDelete []
    let re := processEvents io beat st.song.beatsPerBar st.song.loop st.song.startBeat songLen fuel
        st.song.events
        { activeVoices := rs.2.1, pendingStops := rs.1, nextHandle := st.nextHandle,
          nextId := st.nextId, actions := rs.2.2.2 }
    ({ st with
       song := { st.song with events := re.1 },
       activeVoices := re.2.activeVoices, pendingStops := re.2.pendingStops,
       pendingDelete := rs.2.2.1, nextHandle := re.2.nextHandle, nextId := re.2.nextId },
     re.2.actions)
  else (st, [])

/-- gm_audio_transport_tick: fail before init, succeed as a no-op while the
transport is not playing, otherwise run the queue scan, the song phase, and
finally flush the deferred-delete set (stop, uninit and free every handle). -/
def gm_audio_transport_tick (st : EngineState) (now : ℚ) (io : ℕ → Bool) (fuel : ℕ) :
    ℚ × EngineState × List Action :=
  if ¬ st.engineIniciado then (0, st, [])
  else if ¬ st.transport.playing then (1, st, [])
  else
    let beat := transport_get_beat_unlocked st.transport now
    let q := tickQueuePhase beat st
    let s := tickSongPhase io fuel beat q.1
    let flushActs := s.1.pendingDelete.flatMap (fun h => [Action.stopSound h, Action.uninitFree h])
    (1, { s.1 with pendingDelete := [] }, q.2 ++ s.2 ++ flushActs)

/-- path_join of the source. -/
def path_join (a b : String) : String :=
  if a = "" then b
  else if b = "" then a
  else if a.back = '\\' ∨ a.back = '/' then a ++ b
  else a ++ "\\" ++ b

/-- One event as produced by json_extract_events: either a file clip or a
note (the source tags the latter by prefixing the path with NOTE:). -/
structure PreEvent where
  isNote : Bool
  name : String
  file : String
  offsetBeat : ℚ
  dur : ℚ
  vel : ℚ
deriving DecidableEq

/-- The results of the regex extraction pass over the song definition text:
bpm, bar geometry, loop flag, instrument declaration (file, optional base
note, optional tuning) and the event list (empty when extraction failed,
since json_extract_events reports failure exactly on an empty result). -/
structure SongDefParse where
  bpm : Option ℚ
  beatsPerBar : Option ℤ
  bars : Option ℤ
  loop : Option Bool
  events : List PreEvent
  instr : Option (String × Option ℤ × Option ℚ)
deriving DecidableEq

/-- The event loading loop of gm_audio_song_load_file.  Returns a success
flag, the events accumulated so far (carrying every sound created so far, for
rollback on failure) and the advanced allocation counter.  A note event with
no declared instrument fails; a fixed clip whose creation fails (oracle
clipOk at the consumed allocation index) fails after consuming its
allocation.  A successfully loaded note event gets velocity 1: the vel tail
search of the source never matches because the note regex admits no pipe
character. -/
def song_load_events (baseDir instrFile : String) (baseNote : ℤ) (tuningHz : ℚ)
    (clipOk : ℕ → Bool) :
    List PreEvent → List SongEvent → ℕ → Bool × List SongEvent × ℕ
  | [], acc, nh => (true, acc, nh)
  | ev :: rest, acc, nh =>
    if ev.isNote then
      if instrFile = "" then (false, acc, nh)
      else
        song_load_events baseDir instrFile baseNote tuningHz clipOk rest
          (acc ++ [{ path := EvPath.note (path_join baseDir instrFile) ev.name baseNote tuningHz,
                     sound := none, offsetBeat := ev.offsetBeat, nextBeat := 0,
                     dur := ev.dur, vel := 1, active := true }]) nh
    else
      if clipOk nh then
        song_load_events baseDir instrFile baseNote tuningHz clipOk rest
          (acc ++ [{ path := EvPath.clip (path_join baseDir ev.file), sound := some nh,
                     offsetBeat := ev.offsetBeat, nextBeat := 0, dur := ev.dur,
                     vel := ev.vel, active := true }]) (nh + 1)
      else (false, acc, nh + 1)

/-- gm_audio_song_load_file: fail before init or on a null path or an
unreadable file; apply a parsed positive bpm with the set_tempo re-anchoring
rule (resetting to beat 0 when not playing); fail on an empty event list;
then release the previous song, build the new event list, and either roll the
created sounds into the deferred-delete set on failure or install the new
song. -/
def gm_audio_song_load_file (st : EngineState) (path : Option String) (readOk : Bool)
    (baseDir : String) (p : SongDefParse) (clipOk : ℕ → Bool) (now : ℚ) :
    ℚ × EngineState :=
  if ¬ st.engineIniciado ∨ path = none then (0, st)
  else if ¬ readOk then (0, st)
  else
    let beatsPerBar := p.beatsPerBar.getD 4
    let bars := p.bars.getD 1
    let loopFlag := p.loop.getD true
    let tr :=
      match p.bpm with
      | some b =>
        if 0 < b then
          let current := transport_get_beat_unlocked st.transport now
          if st.transport.playing then
            { st.transport with bpm := b, baseBeat := current, startTime := now }
          else { st.transport with bpm := b, baseBeat := 0 }
        else st.transport
      | none => st.transport
    let st1 := { st with transport := tr }
    if p.events = [] then (0, st1)
    else
      let oldSounds := st1.song.events.filterMap (fun ev => ev.sound)
      let st2 := { st1 with pendingDelete := st1.pendingDelete ++ oldSounds, song := songDefault }
      let instrFile := match p.instr with | some i => i.1 | none => ""
      let baseNote := match p.instr with | some i => i.2.1.getD 60 | none => 60
      let tuningHz := match p.instr with | some i => i.2.2.getD 440 | none => 440
      let r := song_load_events baseDir instrFile baseNote tuningHz clipOk p.events [] st2.nextHandle
      if r.1 then
        (1, { st2 with
              nextHandle := r.2.2,
              song := { loaded := true, loop := loopFlag,
                        beatsPerBar := if 0 < beatsPerBar then beatsPerBar else 4,
                        bars := if 0 < bars then bars else 1,
                        startBeat := 0, events := r.2.1 } })
      else
        (0, { st2 with
              nextHandle := r.2.2,
              pendingDelete := st2.pendingDelete ++ r.2.1.filterMap (fun e => e.sound) })

/-- Number of firings the catch-up loop performs for one event: zero when the
next scheduled instant lies beyond the tolerance window, otherwise one plus
the number of whole bar periods the clock has run past it. -/
def fireCount (beat nextBeat : ℚ) (bpb : ℤ) : ℕ :=
  if beat + eps < nextBeat then 0
  else (⌊(beat + eps - nextBeat) / (bpb : ℚ)⌋ + 1).toNat

/-- A creation oracle that always succeeds. -/
def ioTrue : ℕ → Bool := fun _ => true

/-- An empty song event scan context. -/
def ctxEmpty : TickCtx :=
  { activeVoices := [], pendingStops := [], nextHandle := 0, nextId := 1, actions := [] }

/-- Initialized, paused state carrying one deferred-delete handle. -/
def stC2 : EngineState :=
  { initialState with
    engineIniciado := true, pendingDelete := [7] }

/-- Initialized playing state with a looping one-beat song holding one fixed
clip event, used for the clock-jump catch-up scenario. -/
def stC3 : EngineState :=
  { engineIniciado := true, sounds := [], pausedFrame := [], nextId := 1, nextHandle := 0,
    queue := [], activeVoices := [], pendingStops := [], pendingDelete := [],
    transport := { playing := true, bpm := 60, baseBeat := 0, startTime := 0 },
    song := { loaded := true, loop := true, beatsPerBar := 1, bars := 1, startBeat := 0,
              events := [{ path := EvPath.clip "c", sound := some 50, offsetBeat := 0,
                           nextBeat := 0, dur := 0, vel := 1, active := true }] } }

/-- The fixed clip event of stC3 as it stands after the tick at beat 0. -/
def evC3w : SongEvent :=
  { path := EvPath.clip "c", sound := some 50, offsetBeat := 0, nextBeat := 1,
    dur := 0, vel := 1, active := true }

/-- Initialized paused state whose clock reads beat 3.2. -/
def stC4a : EngineState :=
  { initialState with
    engineIniciado := true,
    transport := { playing := false, bpm := 120, baseBeat := 16/5, startTime := 0 } }

/-- Initialized paused state whose clock reads beat 4. -/
def stC4b : EngineState :=
  { initialState with
    engineIniciado := true,
    transport := { playing := false, bpm := 120, baseBeat := 4, startTime := 0 } }

/-- Initialized playing state at beat 4 with a non looping two-bar song in 4/4
holding one fixed clip event whose next firing is beat 4. -/
def stC5 : EngineState :=
  { engineIniciado := true, sounds := [], pausedFrame := [], nextId := 1, nextHandle := 0,
    queue := [], activeVoices := [], pendingStops := [], pendingDelete := [],
    transport := { playing := true, bpm := 60, baseBeat := 4, startTime := 0 },
    song := { loaded := true, loop := false, beatsPerBar := 4, bars := 2, startBeat := 0,
              events := [{ path := EvPath.clip "k", sound := some 60, offsetBeat := 0,
                           nextBeat := 4, dur := 0, vel := 1, active := true }] } }

/-- An active event at the end-of-song boundary, for the deactivation rule. -/
def evC5w : SongEvent :=
  { path := EvPath.clip "k", sound := some 60, offsetBeat := 0, nextBeat := 8,
    dur := 0, vel := 1, active := true }

/-- An inactive event, which a tick must skip untouched. -/
def evInactive : SongEvent :=
  { path := EvPath.clip "k", sound := some 61, offsetBeat := 0, nextBeat := 0,
    dur := 0, vel := 1, active := false }

/-- Initialized playing state with a loaded song, one pending-stop voice, one
active voice and one queued launch, to exercise gm_audio_transport_stop. -/
def stC6 : EngineState :=
  { engineIniciado := true, sounds := [(2, 20)], pausedFrame := [], nextId := 7, nextHandle := 40,
    queue := [{ id := 2, targetBeat := 9 }],
    activeVoices := [{ sound := some 32, id := 4 }],
    pendingStops := [{ voice := some 31, endBeat := 6 }], pendingDelete := [],
    transport := { playing := true, bpm := 120, baseBeat := 3, startTime := 0 },
    song := { loaded := true, loop := false, beatsPerBar := 4, bars := 2, startBeat := 2,
              events := [{ path := EvPath.clip "k", sound := some 60, offsetBeat := 1,
                           nextBeat := 11, dur := 0, vel := 1, active := false }] } }

/-- Initialized state with a loaded song whose single event owns a sound. -/
def stC8 : EngineState :=
  { initialState with
    engineIniciado := true,
    song := { loaded := true, loop := true, beatsPerBar := 4, bars := 1, startBeat := 0,
              events := [{ path := EvPath.clip "old.wav", sound := some 9, offsetBeat := 0,
                           nextBeat := 0, dur := 0, vel := 1, active := true }] } }

/-- A parse result with no extracted fields and no events (extraction failed). -/
def pEmpty : SongDefParse :=
  { bpm := none, beatsPerBar := none, bars := none, loop := none, events := [], instr := none }

/-- A parse result holding one note event but no instrument declaration. -/
def pNote : SongDefParse :=
  { bpm := none, beatsPerBar := none, bars := none, loop := none,
    events := [{ isNote := true, name := "C4", file := "", offsetBeat := 0, dur := 1, vel := 1 }],
    instr := none }

/-- Initialized playing state (beat 5) with a voice present in both the
active-voice list and the pending-stop list, the double-free scenario. -/
def stC9 : EngineState :=
  { engineIniciado := true, sounds := [], pausedFrame := [], nextId := 6, nextHandle := 101,
    queue := [], activeVoices := [{ sound := some 100, id := 5 }],
    pendingStops := [{ voice := some 100, endBeat := 2 }], pendingDelete := [],
    transport := { playing := true, bpm := 120, baseBeat := 0, startTime := 0 },
    song := { loaded := true, loop := true, beatsPerBar := 4, bars := 1, startBeat := 0,
              events := [] } }

/-- Initialized playing state (beat 5) with one sound in the playback table
and a queued launch referencing it, due at beat 2. -/
def stC10 : EngineState :=
  { initialState with
    engineIniciado := true, sounds := [(3, 40)],
    queue := [{ id := 3, targetBeat := 2 }],
    transport := { playing := true, bpm := 60, baseBeat := 5, startTime := 0 } }

/-! ## Theorems -/

theorem setTempo_beat_eq (st : EngineState) (bpm now : ℚ) (hbpm : 0 < bpm) :
    gm_audio_get_beat_position (gm_audio_set_tempo st bpm now).2 now =
      gm_audio_get_beat_position st now := by
  unfold gm_audio_set_tempo gm_audio_get_beat_position transport_get_beat_unlocked
  have hb : ¬ bpm ≤ 0 := not_le.mpr hbpm
  by_cases hp : st.transport.playing
  · simp [hb, hp]
  · simp [hb, hp]

/-- Claim C1: for every transport state and every bpm > 0, gm_audio_set_tempo
leaves the value of the current beat unchanged when no wall clock time
elapses during the call, and in particular setTempo 90, setTempo 120,
setTempo 90 at one instant leaves the beat unchanged throughout. -/
theorem set_tempo_preserves_beat (st : EngineState) (bpm now : ℚ) (hbpm : 0 < bpm) :
    gm_audio_get_beat_position (gm_audio_set_tempo st bpm now).2 now =
      gm_audio_get_beat_position st now ∧
    gm_audio_get_beat_position (gm_audio_set_tempo st 90 now).2 now =
      gm_audio_get_beat_position st now ∧
    gm_audio_get_beat_position
        (gm_audio_set_tempo (gm_audio_set_tempo st 90 now).2 120 now).2 now =
      gm_audio_get_beat_position st now ∧
    gm_audio_get_beat_position
        (gm_audio_set_tempo
          (gm_audio_set_tempo (gm_audio_set_tempo st 90 now).2 120 now).2 90 now).2 now =
      gm_audio_get_beat_position st now := by
  refine ⟨setTempo_beat_eq st bpm now hbpm, setTempo_beat_eq st 90 now (by norm_num), ?_, ?_⟩
  · rw [setTempo_beat_eq _ 120 now (by norm_num), setTempo_beat_eq st 90 now (by norm_num)]
  · rw [setTempo_beat_eq _ 90 now (by norm_num), setTempo_beat_eq _ 120 now (by norm_num),
      setTempo_beat_eq st 90 now (by norm_num)]

theorem set_tempo_preserves_beat_witness :
    (0 : ℚ) < 100 ∧
    gm_audio_get_beat_position (gm_audio_set_tempo stC4a 100 0).2 0 =
      gm_audio_get_beat_position stC4a 0 :=
  ⟨by norm_num, (set_tempo_preserves_beat stC4a 100 0 (by norm_num)).1⟩

theorem processStops_pendingDelete_mem (beat : ℚ) (hnd : Handle) :
    ∀ (l : List PendingStop) (av : List ActiveVoice) (pd : List Handle) (acts : List Action),
      hnd ∈ pd → hnd ∈ (processStops beat l av pd acts).2.2.1 := by
  intro l
  induction l with
  | nil => intro av pd acts hm; simpa [processStops] using hm
  | cons ps rest ih =>
    intro av pd acts hm
    unfold processStops
    by_cases hd : ps.endBeat ≤ beat + eps
    · rw [if_pos hd]
      cases hv : ps.voice with
      | some v => exact ih _ _ _ (List.mem_append_left _ hm)
      | none => exact ih _ _ _ hm
    · rw [if_neg hd]
      exact ih _ _ _ hm

theorem tickSongPhase_pendingDelete_mem (io : ℕ → Bool) (fuel : ℕ) (beat : ℚ)
    (st : EngineState) (hnd : Handle) (hm : hnd ∈ st.pendingDelete) :
    hnd ∈ (tickSongPhase io fuel beat st).1.pendingDelete := by
  unfold tickSongPhase
  by_cases hl : st.song.loaded
  · simp only [hl, if_true]
    exact processStops_pendingDelete_mem beat hnd _ _ _ _ hm
  · simpa [hl] using hm

/-- Claim C2 (amended): when the engine is initialized and the transport is
playing, gm_audio_transport_tick ends with the deferred-delete set empty and
every handle present in it at entry has been stopped, uninitialized and
freed; when the engine is not initialized or the transport is not playing the
tick returns early and leaves the set intact. -/
theorem tick_flushes_deferred_deletes (st : EngineState) (now : ℚ) (io : ℕ → Bool)
    (fuel : ℕ) (hInit : st.engineIniciado = true) (hPlay : st.transport.playing = true) :
    (gm_audio_transport_tick st now io fuel).2.1.pendingDelete = [] ∧
    ∀ hnd ∈ st.pendingDelete,
      Action.stopSound hnd ∈ (gm_audio_transport_tick st now io fuel).2.2 ∧
      Action.uninitFree hnd ∈ (gm_audio_transport_tick st now io fuel).2.2 := by
  unfold gm_audio_transport_tick
  simp only [hInit, hPlay, not_true, if_false]
  constructor
  · trivial
  · intro hnd hm
    have hq : hnd ∈ (tickQueuePhase (transport_get_beat_unlocked st.transport now) st).1.pendingDelete := by
      simpa [tickQueuePhase] using hm
    have hs := tickSongPhase_pendingDelete_mem io fuel
      (transport_get_beat_unlocked st.transport now)
      (tickQueuePhase (transport_get_beat_unlocked st.transport now) st).1 hnd hq
    constructor
    · exact List.mem_append_right _ (List.mem_flatMap.mpr ⟨hnd, hs, by simp⟩)
    · exact List.mem_append_right _ (List.mem_flatMap.mpr ⟨hnd, hs, by simp⟩)

theorem tick_flushes_deferred_deletes_witness :
    stC9.engineIniciado = true ∧ stC9.transport.playing = true ∧
    (gm_audio_transport_tick stC9 0 ioTrue 5).2.1.pendingDelete = [] :=
  ⟨rfl, rfl, (tick_flushes_deferred_deletes stC9 0 ioTrue 5 rfl rfl).1⟩

/-- Counterexample to claim C2 as stated: an initialized state whose
transport is not playing; the tick returns success without flushing, leaving
handle 7 in the deferred-delete set. -/
theorem tick_skips_flush_when_not_playing :
    stC2.pendingDelete = [7] ∧
    (gm_audio_transport_tick stC2 0 ioTrue 5).1 = 1 ∧
    (gm_audio_transport_tick stC2 0 ioTrue 5).2.1.pendingDelete = [7] := by
  refine ⟨rfl, by decide, by decide⟩

theorem fireCount_succ (beat nextBeat : ℚ) (bpb : ℤ) (hb : 1 ≤ bpb)
    (hg : nextBeat ≤ beat + eps) :
    fireCount beat nextBeat bpb = fireCount beat (nextBeat + (bpb : ℚ)) bpb + 1 := by
  have hbq : (0 : ℚ) < (bpb : ℚ) := by exact_mod_cast lt_of_lt_of_le zero_lt_one hb
  unfold fireCount
  rw [if_neg (not_lt.mpr hg)]
  by_cases h2 : beat + eps < nextBeat + (bpb : ℚ)
  · rw [if_pos h2]
    have hx0 : 0 ≤ (beat + eps - nextBeat) / (bpb : ℚ) := div_nonneg (by linarith) hbq.le
    have hx1 : (beat + eps - nextBeat) / (bpb : ℚ) < 1 := by
      rw [div_lt_one hbq]; linarith
    have hz : ⌊(beat + eps - nextBeat) / (bpb : ℚ)⌋ = 0 :=
      Int.floor_eq_zero_iff.mpr ⟨hx0, hx1⟩
    simp [hz]
  · rw [if_neg h2]
    have hge : nextBeat + (bpb : ℚ) ≤ beat + eps := not_lt.mp h2
    have hdiv : (beat + eps - (nextBeat + (bpb : ℚ))) / (bpb : ℚ)
        = (beat + eps - nextBeat) / (bpb : ℚ) - 1 := by
      field_simp
      ring
    have hfl : ⌊(beat + eps - (nextBeat + (bpb : ℚ))) / (bpb : ℚ)⌋
        = ⌊(beat + eps - nextBeat) / (bpb : ℚ)⌋ - 1 := by
      rw [hdiv, Int.floor_sub_one]
    have hpos : 1 ≤ ⌊(beat + eps - nextBeat) / (bpb : ℚ)⌋ := by
      rw [Int.le_floor]
      push_cast
      rw [le_div_iff₀ hbq]
      linarith
    rw [hfl]
    omega

theorem fireCount_lt_iff (beat nextBeat : ℚ) (bpb : ℤ) (hb : 1 ≤ bpb) (k : ℕ) :
    k < fireCount beat nextBeat bpb ↔ nextBeat + (k : ℚ) * (bpb : ℚ) ≤ beat + eps := by
  have hbq : (0 : ℚ) < (bpb : ℚ) := by exact_mod_cast lt_of_lt_of_le zero_lt_one hb
  unfold fireCount
  by_cases hlt : beat + eps < nextBeat
  · rw [if_pos hlt]
    constructor
    · intro hk; exact absurd hk (Nat.not_lt_zero k)
    · intro hle
      exfalso
      have : (0 : ℚ) ≤ (k : ℚ) * (bpb : ℚ) :=
        mul_nonneg (Nat.cast_nonneg k) hbq.le
      linarith
  · rw [if_neg hlt]
    rw [Int.lt_toNat, Int.lt_add_one_iff, Int.le_floor, le_div_iff₀ hbq]
    push_cast
    constructor
    · intro h; linarith
    · intro h; linarith

theorem songEventWhile_clip_loop (io : ℕ → Bool) (beat : ℚ) (bpb : ℤ) (hb : 1 ≤ bpb)
    (startBeat songLen : ℚ) (hnd : Handle) (fuel : ℕ) :
    ∀ (ev : SongEvent) (σ : TickCtx), ev.sound = some hnd →
      fireCount beat ev.nextBeat bpb ≤ fuel →
      songEventWhile io beat bpb true startBeat songLen fuel ev σ =
        ({ ev with nextBeat := ev.nextBeat + (fireCount beat ev.nextBeat bpb : ℚ) * (bpb : ℚ) },
         { σ with actions := σ.actions
            ++ List.replicate (fireCount beat ev.nextBeat bpb) (Action.seekStart hnd) }) := by
  induction fuel with
  | zero =>
    intro ev σ hs hf
    have h0 : fireCount beat ev.nextBeat bpb = 0 := Nat.le_zero.mp hf
    simp [songEventWhile, h0]
  | succ n ih =>
    intro ev σ hs hf
    by_cases hg : ev.nextBeat ≤ beat + eps
    · have hsucc := fireCount_succ beat ev.nextBeat bpb hb hg
      have hfe : fireEvent io beat ev σ
          = { σ with actions := σ.actions ++ [Action.seekStart hnd] } := by
        unfold fireEvent
        rw [hs]
      have hf2 : fireCount beat (ev.nextBeat + (bpb : ℚ)) bpb ≤ n := by omega
      rw [songEventWhile, if_pos hg]
      simp only [not_true, false_and, if_false, hfe]
      rw [ih { ev with nextBeat := ev.nextBeat + (bpb : ℚ) }
            { σ with actions := σ.actions ++ [Action.seekStart hnd] } hs hf2]
      rw [hsucc]
      simp only [Prod.mk.injEq, SongEvent.mk.injEq, TickCtx.mk.injEq, List.replicate_succ,
        true_and, and_true]
      refine ⟨by push_cast; ring, by simp⟩
    · have h0 : fireCount beat ev.nextBeat bpb = 0 := by
        unfold fireCount
        rw [if_pos (not_le.mp hg)]
      rw [songEventWhile, if_neg hg]
      simp [h0]

/-- Claim C3: within one tick each active song event fires once for every
scheduled instant it has reached, firing while beat + eps is at least
nextBeat and advancing nextBeat by beatsPerBar after each firing; so after a
clock jump from beat 0 to beat 10 with beatsPerBar 1, a looping song event
fires exactly 10 times before that tick returns. -/
theorem song_event_catchup (io : ℕ → Bool) (beat : ℚ) (bpb : ℤ) (startBeat songLen : ℚ)
    (hnd : Handle) (fuel : ℕ) (ev : SongEvent) (σ : TickCtx)
    (hb : 1 ≤ bpb) (hs : ev.sound = some hnd)
    (hf : fireCount beat ev.nextBeat bpb ≤ fuel) :
    songEventWhile io beat bpb true startBeat songLen fuel ev σ =
      ({ ev with nextBeat := ev.nextBeat + (fireCount beat ev.nextBeat bpb : ℚ) * (bpb : ℚ) },
       { σ with actions := σ.actions
          ++ List.replicate (fireCount beat ev.nextBeat bpb) (Action.seekStart hnd) }) ∧
    (∀ k : ℕ, k < fireCount beat ev.nextBeat bpb ↔
      ev.nextBeat + (k : ℚ) * (bpb : ℚ) ≤ beat + eps) ∧
    (gm_audio_transport_tick (gm_audio_transport_tick stC3 0 ioTrue 5).2.1
        10 ioTrue 15).2.2 = List.replicate 10 (Action.seekStart 50) :=
  ⟨songEventWhile_clip_loop io beat bpb hb startBeat songLen hnd fuel ev σ hs hf,
   fun k => fireCount_lt_iff beat ev.nextBeat bpb hb k,
   by norm_num [gm_audio_transport_tick, tickQueuePhase, tickSongPhase, processQueue,
     processStops, processEvents, songEventWhile, fireEvent, transport_get_beat_unlocked,
     eps, stC3, ioTrue, List.replicate_succ]⟩

theorem fireCount_ten : fireCount 10 1 1 = 10 := by
  unfold fireCount
  rw [if_neg (by norm_num [eps])]
  rw [show ((10 : ℚ) + eps - 1) / ((1 : ℤ) : ℚ) = 9 + eps by push_cast; ring]
  rw [show ⌊(9 : ℚ) + eps⌋ = 9 by rw [Int.floor_eq_iff]; norm_num [eps]]
  rfl

theorem song_event_catchup_witness :
    (1 : ℤ) ≤ 1 ∧ evC3w.sound = some 50 ∧ fireCount 10 evC3w.nextBeat 1 ≤ 12 ∧
    songEventWhile ioTrue 10 1 true 0 1 12 evC3w ctxEmpty =
      ({ evC3w with nextBeat := evC3w.nextBeat + (fireCount 10 evC3w.nextBeat 1 : ℚ) * ((1 : ℤ) : ℚ) },
       { ctxEmpty with actions := ctxEmpty.actions
          ++ List.replicate (fireCount 10 evC3w.nextBeat 1) (Action.seekStart 50) }) ∧
    fireCount 10 evC3w.nextBeat 1 = 10 := by
  have h1 : evC3w.nextBeat = 1 := rfl
  refine ⟨le_refl 1, rfl, ?_, ?_, ?_⟩
  · rw [h1, fireCount_ten]; norm_num
  · exact (song_event_catchup ioTrue 10 1 0 1 50 12 evC3w ctxEmpty le_rfl rfl
      (by rw [h1, fireCount_ten]; norm_num)).1
  · rw [h1, fireCount_ten]

/-- Claim C4: a successful gm_audio_play_on_beat treats a non positive
quantum as 1 and enqueues an entry whose targetBeat is
ceil(currentBeat / q) * q; when the current beat is exactly a multiple of q
the target equals that same beat, so the launch fires on the next tick. -/
theorem play_on_beat_quantization (st : EngineState) (path : String) (quant now q target : ℚ)
    (hInit : st.engineIniciado = true)
    (hq : q = if quant ≤ 0 then 1 else quant)
    (ht : target = ((⌈transport_get_beat_unlocked st.transport now / q⌉ : ℤ) : ℚ) * q) :
    (gm_audio_play_on_beat st (some path) quant now true).2.queue
      = st.queue ++ [{ id := st.nextId, targetBeat := target }] ∧
    (gm_audio_play_on_beat st (some path) quant now true).1 = (st.nextId : ℚ) ∧
    (gm_audio_play_on_beat st (some path) quant now true).2.sounds
      = st.sounds ++ [(st.nextId, st.nextHandle)] ∧
    (quant ≤ 0 → q = 1) ∧ (0 < q) ∧
    (∀ k : ℤ, transport_get_beat_unlocked st.transport now = (k : ℚ) * q →
      target = transport_get_beat_unlocked st.transport now) := by
  have hq0 : 0 < q := by
    rw [hq]
    by_cases hneg : quant ≤ 0
    · rw [if_pos hneg]; norm_num
    · rw [if_neg hneg]; exact lt_of_not_le hneg
  refine ⟨?_, ?_, ?_, ?_, hq0, ?_⟩
  · unfold gm_audio_play_on_beat
    simp [hInit, ht, hq]
  · unfold gm_audio_play_on_beat
    simp [hInit]
  · unfold gm_audio_play_on_beat
    simp [hInit]
  · intro hneg; rw [hq, if_pos hneg]
  · intro k hk
    rw [ht, hk]
    rw [mul_div_cancel_right₀ (k : ℚ) (ne_of_gt hq0)]
    rw [Int.ceil_intCast]

theorem play_on_beat_quantization_witness :
    stC4a.engineIniciado = true ∧
    (gm_audio_play_on_beat stC4a (some "a") 1 0 true).2.queue
      = stC4a.queue ++ [{ id := stC4a.nextId, targetBeat := 4 }] ∧
    stC4b.engineIniciado = true ∧
    (gm_audio_play_on_beat stC4b (some "a") 1 0 true).2.queue
      = stC4b.queue ++ [{ id := stC4b.nextId, targetBeat := 4 }] ∧
    (4 : ℚ) = transport_get_beat_unlocked stC4b.transport 0 := by
  have hb4a : transport_get_beat_unlocked stC4a.transport 0 = 16/5 := by
    norm_num [transport_get_beat_unlocked, stC4a]
  have hb4b : transport_get_beat_unlocked stC4b.transport 0 = 4 := by
    norm_num [transport_get_beat_unlocked, stC4b]
  have hta : (4 : ℚ) = ((⌈transport_get_beat_unlocked stC4a.transport 0 / 1⌉ : ℤ) : ℚ) * 1 := by
    rw [hb4a]
    rw [show ((16 : ℚ)/5) / 1 = 16/5 by norm_num]
    rw [show ⌈(16 : ℚ)/5⌉ = 4 by rw [Int.ceil_eq_iff]; norm_num]
    norm_num
  have htb : (4 : ℚ) = ((⌈transport_get_beat_unlocked stC4b.transport 0 / 1⌉ : ℤ) : ℚ) * 1 := by
    rw [hb4b]
    rw [show ((4 : ℚ)) / 1 = ((4 : ℤ) : ℚ) by norm_num]
    rw [Int.ceil_intCast]
    norm_num
  have ha := play_on_beat_quantization stC4a "a" 1 0 1 4 rfl (by norm_num) hta
  have hb := play_on_beat_quantization stC4b "a" 1 0 1 4 rfl (by norm_num) htb
  exact ⟨rfl, ha.1, rfl, hb.1,
    (hb.2.2.2.2.2 4 (by rw [hb4b]; norm_num)).symm.trans hb4b⟩

/-- Claim C5 (amended): with loop false, an event is deactivated as soon as a
firing advance pushes nextBeat - startBeat to songLen + eps or beyond, the
while loop breaking immediately; an event whose advanced nextBeat minus
startBeat equals the song length exactly stays active and fires once more at
the boundary; and an inactive event is skipped untouched by the event scan
until something rearms it (song play or transport stop). -/
theorem song_event_deactivation (io : ℕ → Bool) (beat : ℚ) (bpb : ℤ)
    (startBeat songLen : ℚ) (fuel : ℕ) (ev : SongEvent) (σ : TickCtx)
    (hg : ev.nextBeat ≤ beat + eps)
    (hd : songLen + eps ≤ ev.nextBeat + (bpb : ℚ) - startBeat) :
    songEventWhile io beat bpb false startBeat songLen (fuel + 1) ev σ =
      ({ ev with nextBeat := ev.nextBeat + (bpb : ℚ), active := false },
        fireEvent io beat ev σ) ∧
    (∀ ev2 : SongEvent, ev2.active = false → ∀ σ2 : TickCtx,
      processEvents io beat bpb false startBeat songLen fuel [ev2] σ2 = ([ev2], σ2)) := by
  constructor
  · simp only [songEventWhile, if_pos hg]
    rw [if_pos]
    constructor
    · simp
    · simpa using hd
  · intro ev2 hact σ2
    simp [processEvents, hact]

/-- Counterexample to claim C5 as stated: a non looping song with
beatsPerBar 4 and bars 2 (length 8); the tick at beat 4 fires the event and
advances nextBeat to 8, so nextBeat - startBeat = 8 ≥ 8, yet the event stays
active because the source deactivates only at songLen + 1e-6 or beyond. -/
theorem song_event_boundary_stays_active :
    stC5.song.loop = false ∧ stC5.song.beatsPerBar = 4 ∧ stC5.song.bars = 2 ∧
    stC5.song.startBeat = 0 ∧
    (gm_audio_transport_tick stC5 0 ioTrue 10).2.1.song.events =
      [{ path := EvPath.clip "k", sound := some 60, offsetBeat := 0, nextBeat := 8,
         dur := 0, vel := 1, active := true }] ∧
    (8 : ℚ) - 0 ≥ 8 := by
  refine ⟨rfl, rfl, rfl, rfl, ?_, by norm_num⟩
  norm_num [gm_audio_transport_tick, tickQueuePhase, tickSongPhase, processQueue,
    processStops, processEvents, songEventWhile, fireEvent, transport_get_beat_unlocked,
    eps, stC5, ioTrue]

theorem song_event_deactivation_witness :
    evC5w.nextBeat ≤ (8 : ℚ) + eps ∧
    (8 : ℚ) + eps ≤ evC5w.nextBeat + ((4 : ℤ) : ℚ) - 0 ∧
    songEventWhile ioTrue 8 4 false 0 8 3 evC5w ctxEmpty =
      ({ evC5w with nextBeat := evC5w.nextBeat + ((4 : ℤ) : ℚ), active := false },
       fireEvent ioTrue 8 evC5w ctxEmpty) ∧
    processEvents ioTrue 8 4 false 0 8 2 [evInactive] ctxEmpty = ([evInactive], ctxEmpty) := by
  have hg : evC5w.nextBeat ≤ (8 : ℚ) + eps := by norm_num [evC5w, eps]
  have hd : (8 : ℚ) + eps ≤ evC5w.nextBeat + ((4 : ℤ) : ℚ) - 0 := by norm_num [evC5w, eps]
  have h := song_event_deactivation ioTrue 8 4 0 8 2 evC5w ctxEmpty hg hd
  exact ⟨hg, hd, h.1, h.2 evInactive rfl ctxEmpty⟩

/-- Claim C6: for every initialized state, gm_audio_transport_stop resets the
clock (playing false, baseBeat 0), clears the quantized launch queue leaving
the basic-playback table untouched, stops and schedules deferred deletion of
every pending-stop voice and every active voice clearing both lists, and for
a loaded song sets startBeat to 0 and every event to active with nextBeat
equal to its offsetBeat, leaving the song loaded and its fixed clip sounds in
place; a handle that was neither already scheduled nor a voice is not
scheduled for deletion. -/
theorem transport_stop_effects (st : EngineState) (hInit : st.engineIniciado = true) :
    (gm_audio_transport_stop st).1 = 1 ∧
    (gm_audio_transport_stop st).2.1.transport.playing = false ∧
    (gm_audio_transport_stop st).2.1.transport.baseBeat = 0 ∧
    (gm_audio_transport_stop st).2.1.queue = [] ∧
    (gm_audio_transport_stop st).2.1.sounds = st.sounds ∧
    (gm_audio_transport_stop st).2.1.pendingStops = [] ∧
    (gm_audio_transport_stop st).2.1.activeVoices = [] ∧
    (gm_audio_transport_stop st).2.1.pendingDelete =
      st.pendingDelete ++ st.pendingStops.filterMap (fun ps => ps.voice)
        ++ st.activeVoices.filterMap (fun av => av.sound) ∧
    (∀ v ∈ st.pendingStops.filterMap (fun ps => ps.voice),
        Action.stopSound v ∈ (gm_audio_transport_stop st).2.2) ∧
    (∀ v ∈ st.activeVoices.filterMap (fun av => av.sound),
        Action.stopSound v ∈ (gm_audio_transport_stop st).2.2) ∧
    (st.song.loaded = true →
      (gm_audio_transport_stop st).2.1.song.loaded = true ∧
      (gm_audio_transport_stop st).2.1.song.startBeat = 0 ∧
      (gm_audio_transport_stop st).2.1.song.events =
        st.song.events.map (fun ev => { ev with active := true, nextBeat := ev.offsetBeat })) ∧
    (∀ hnd : Handle, hnd ∉ st.pendingDelete →
      hnd ∉ st.pendingStops.filterMap (fun ps => ps.voice) →
      hnd ∉ st.activeVoices.filterMap (fun av => av.sound) →
      hnd ∉ (gm_audio_transport_stop st).2.1.pendingDelete) := by
  unfold gm_audio_transport_stop
  simp only [hInit, not_true, if_false]
  refine ⟨trivial, trivial, trivial, trivial, trivial, trivial, trivial, trivial, ?_, ?_, ?_, ?_⟩
  · intro v hv
    exact List.mem_append_left _ (List.mem_map_of_mem Action.stopSound hv)
  · intro v hv
    exact List.mem_append_right _ (List.mem_map_of_mem Action.stopSound hv)
  · intro hl
    simp [hl]
  · intro hnd h1 h2 h3
    simp only [List.mem_append]
    rintro ((hc | hc) | hc)
    · exact h1 hc
    · exact h2 hc
    · exact h3 hc

theorem transport_stop_effects_witness :
    stC6.engineIniciado = true ∧
    (gm_audio_transport_stop stC6).2.1.pendingDelete = [31, 32] ∧
    (gm_audio_transport_stop stC6).2.1.queue = [] ∧
    (gm_audio_transport_stop stC6).2.1.sounds = [(2, 20)] ∧
    (gm_audio_transport_stop stC6).2.1.song.events =
      [{ path := EvPath.clip "k", sound := some 60, offsetBeat := 1,
         nextBeat := 1, dur := 0, vel := 1, active := true }] := by
  obtain ⟨h1, h2, h3, h4, h5, h6, h7, h8, h9, h10, h11, h12⟩ :=
    transport_stop_effects stC6 rfl
  refine ⟨rfl, h8.trans (by rfl), h4, h5.trans (by rfl), ?_⟩
  exact (h11 rfl).2.2.trans (by rfl)

/-- Claim C7 (amended): before init, operations that check gEngineIniciado
(transport_stop, transport_tick, play_on_beat, song_load_file) fail with 0.0
and leave the state unchanged; but gm_audio_set_tempo performs its normal
update and returns 1.0 for any bpm > 0 regardless of initialization,
gm_audio_song_stop returns success 1.0 as a no-op when no song is loaded, and
gm_audio_song_set_loop and gm_audio_stop return 0.0 only because no song is
loaded and the playback table is empty. -/
theorem uninitialized_operation_behavior (st : EngineState)
    (hni : st.engineIniciado = false) :
    gm_audio_transport_stop st = (0, st, []) ∧
    (∀ now io fuel, gm_audio_transport_tick st now io fuel = (0, st, [])) ∧
    (∀ path quant now ok, gm_audio_play_on_beat st path quant now ok = (0, st)) ∧
    (∀ path readOk baseDir p clipOk now,
        gm_audio_song_load_file st path readOk baseDir p clipOk now = (0, st)) ∧
    (st.song.loaded = false → gm_audio_song_stop st = (1, st, [])) ∧
    (st.song.loaded = false → ∀ flag, gm_audio_song_set_loop st flag = (0, st)) ∧
    (∀ bpm now, 0 < bpm → (gm_audio_set_tempo st bpm now).1 = 1) ∧
    (∀ id, lookupSound st.sounds id = none → gm_audio_stop st id = (0, st, [])) := by
  refine ⟨?_, ?_, ?_, ?_, ?_, ?_, ?_, ?_⟩
  · unfold gm_audio_transport_stop
    simp [hni]
  · intro now io fuel
    unfold gm_audio_transport_tick
    simp [hni]
  · intro path quant now ok
    unfold gm_audio_play_on_beat
    simp [hni]
  · intro path readOk baseDir p clipOk now
    unfold gm_audio_song_load_file
    simp [hni]
  · intro hl
    unfold gm_audio_song_stop
    simp [hl]
  · intro hl flag
    unfold gm_audio_song_set_loop
    simp [hl]
  · intro bpm now hbpm
    unfold gm_audio_set_tempo
    rw [if_neg (not_le.mpr hbpm)]
    by_cases hp : st.transport.playing
    · rw [if_pos hp]
    · rw [if_neg hp]
  · intro id hl
    unfold gm_audio_stop
    rw [hl]

/-- Counterexample to claim C7 as stated: in the uninitialized initial state,
gm_audio_song_stop returns success 1.0 rather than failure, and
gm_audio_set_tempo 150 returns 1.0 and changes the stored tempo. -/
theorem uninitialized_not_all_fail :
    initialState.engineIniciado = false ∧
    (gm_audio_song_stop initialState).1 = 1 ∧
    (gm_audio_set_tempo initialState 150 0).1 = 1 ∧
    (gm_audio_set_tempo initialState 150 0).2.transport.bpm = 150 := by
  refine ⟨rfl, ?_, ?_, ?_⟩
  · unfold gm_audio_song_stop
    simp [initialState, songDefault]
  · unfold gm_audio_set_tempo
    norm_num [initialState]
  · unfold gm_audio_set_tempo
    norm_num [initialState]

theorem uninitialized_operation_behavior_witness :
    initialState.engineIniciado = false ∧
    gm_audio_transport_stop initialState = (0, initialState, []) ∧
    initialState.song.loaded = false ∧
    gm_audio_song_set_loop initialState 1 = (0, initialState) := by
  have h := uninitialized_operation_behavior initialState rfl
  exact ⟨rfl, h.1, rfl, h.2.2.2.2.2.1 rfl 1⟩

theorem song_load_events_nextHandle_le (baseDir instrFile : String) (baseNote : ℤ)
    (tuningHz : ℚ) (clipOk : ℕ → Bool) :
    ∀ (evs : List PreEvent) (acc : List SongEvent) (nh : ℕ),
      nh ≤ (song_load_events baseDir instrFile baseNote tuningHz clipOk evs acc nh).2.2 := by
  intro evs
  induction evs with
  | nil => intro acc nh; simp [song_load_events]
  | cons ev rest ih =>
    intro acc nh
    unfold song_load_events
    by_cases hn : ev.isNote = true
    · rw [if_pos hn]
      by_cases hi : instrFile = ""
      · rw [if_pos hi]
      · rw [if_neg hi]
        exact ih _ _
    · rw [if_neg hn]
      by_cases hc : clipOk nh = true
      · rw [if_pos hc]
        exact le_trans (Nat.le_succ nh) (ih _ _)
      · rw [if_neg hc]
        exact Nat.le_succ nh

theorem song_load_events_fail_sounds (baseDir instrFile : String) (baseNote : ℤ)
    (tuningHz : ℚ) (clipOk : ℕ → Bool) :
    ∀ (evs : List PreEvent) (acc : List SongEvent) (nh : ℕ),
      (song_load_events baseDir instrFile baseNote tuningHz clipOk evs acc nh).1 = false →
      ((song_load_events baseDir instrFile baseNote tuningHz clipOk evs acc nh).2.1).filterMap
          (fun e => e.sound)
        = acc.filterMap (fun e => e.sound)
          ++ (List.range' nh
              ((song_load_events baseDir instrFile baseNote tuningHz clipOk evs acc nh).2.2
                - nh)).filter (fun h => clipOk h) := by
  intro evs
  induction evs with
  | nil => intro acc nh hf; simp [song_load_events] at hf
  | cons ev rest ih =>
    intro acc nh hf
    unfold song_load_events at hf ⊢
    by_cases hn : ev.isNote = true
    · rw [if_pos hn] at hf ⊢
      by_cases hi : instrFile = ""
      · rw [if_pos hi] at hf ⊢
        simp
      · rw [if_neg hi] at hf ⊢
        rw [ih _ _ hf]
        simp [List.filterMap_append]
    · rw [if_neg hn] at hf ⊢
      by_cases hc : clipOk nh = true
      · rw [if_pos hc] at hf ⊢
        rw [ih _ _ hf]
        have hle := song_load_events_nextHandle_le baseDir instrFile baseNote tuningHz clipOk rest (acc ++ [{ path := EvPath.clip (path_join baseDir ev.file), sound := some nh, offsetBeat := ev.offsetBeat, nextBeat := 0, dur := ev.dur, vel := ev.vel, active := true }]) (nh + 1)
        rw [show (song_load_events baseDir instrFile baseNote tuningHz clipOk rest (acc ++ [{ path := EvPath.clip (path_join baseDir ev.file), sound := some nh, offsetBeat := ev.offsetBeat, nextBeat := 0, dur := ev.dur, vel := ev.vel, active := true }]) (nh + 1)).2.2 - nh = ((song_load_events baseDir instrFile baseNote tuningHz clipOk rest (acc ++ [{ path := EvPath.clip (path_join baseDir ev.file), sound := some nh, offsetBeat := ev.offsetBeat, nextBeat := 0, dur := ev.dur, vel := ev.vel, active := true }]) (nh + 1)).2.2 - (nh + 1)) + 1 by omega]
        rw [List.range'_succ nh _ 1]
        simp [List.filterMap_append, List.filter_cons, hc]
      · rw [if_neg hc] at hf ⊢
        simp [hc, Nat.add_sub_cancel_left, List.range'_succ, List.filter_cons]

/-- Claim C8 (amended): when gm_audio_song_load_file fails after the event
list has parsed non empty (a note event with no declared instrument, or a
fixed clip whose creation fails), every sound created during that attempt is
handed to the deferred-delete set together with the released previous song
sounds, and no song is loaded; but when it fails earlier (unreadable file or
empty event list) no resource has been created and the previously loaded
song is left in place, not released. -/
theorem song_load_failure_rollback (st : EngineState) (path : String) (baseDir : String)
    (p : SongDefParse) (clipOk : ℕ → Bool) (now : ℚ)
    (hInit : st.engineIniciado = true) :
    (gm_audio_song_load_file st (some path) false baseDir p clipOk now = (0, st)) ∧
    (p.events = [] → ∀ readOk,
      (gm_audio_song_load_file st (some path) readOk baseDir p clipOk now).1 = 0 ∧
      (gm_audio_song_load_file st (some path) readOk baseDir p clipOk now).2.song = st.song) ∧
    (p.events ≠ [] →
      (gm_audio_song_load_file st (some path) true baseDir p clipOk now).1 = 0 →
      (gm_audio_song_load_file st (some path) true baseDir p clipOk now).2.song.loaded = false ∧
      (gm_audio_song_load_file st (some path) true baseDir p clipOk now).2.pendingDelete =
        st.pendingDelete ++ st.song.events.filterMap (fun ev => ev.sound)
          ++ (List.range' st.nextHandle
              ((gm_audio_song_load_file st (some path) true baseDir p clipOk now).2.nextHandle
                - st.nextHandle)).filter (fun h => clipOk h)) := by
  refine ⟨?_, ?_, ?_⟩
  · unfold gm_audio_song_load_file
    simp [hInit]
  · intro he readOk
    unfold gm_audio_song_load_file
    by_cases hr : readOk
    · simp [hInit, hr, he]
    · simp [hInit, hr]
  · intro he h0
    unfold gm_audio_song_load_file at h0 ⊢
    simp only [hInit, Bool.not_eq_true, Option.some_ne_none, or_false, not_true, if_false,
      Bool.true_eq_false, not_false_iff, if_true, he, ite_false] at h0 ⊢
    split at h0
    · simp at h0
    · next hc =>
      rw [if_neg hc]
      rw [Bool.not_eq_true] at hc
      have hsounds := song_load_events_fail_sounds baseDir _ _ _ clipOk p.events [] st.nextHandle hc
      refine ⟨rfl, ?_⟩
      rw [hsounds]
      simp [List.append_assoc]

/-- Counterexample to claim C8 as stated: with a song already loaded, a load
whose definition file is unreadable returns 0.0 yet leaves the previous song
loaded, so the failure does not leave the system in the no-song-loaded
state. -/
theorem song_load_early_failure_keeps_song :
    stC8.song.loaded = true ∧
    (gm_audio_song_load_file stC8 (some "s.json") false "" pEmpty ioTrue 0).1 = 0 ∧
    (gm_audio_song_load_file stC8 (some "s.json") false "" pEmpty ioTrue 0).2.song.loaded = true := by
  refine ⟨rfl, ?_, ?_⟩ <;>
  · unfold gm_audio_song_load_file
    simp [stC8, initialState]

theorem song_load_failure_rollback_witness :
    stC8.engineIniciado = true ∧ pNote.events ≠ [] ∧
    (gm_audio_song_load_file stC8 (some "s.json") true "" pNote ioTrue 0).1 = 0 ∧
    (gm_audio_song_load_file stC8 (some "s.json") true "" pNote ioTrue 0).2.song.loaded = false ∧
    (gm_audio_song_load_file stC8 (some "s.json") true "" pNote ioTrue 0).2.pendingDelete = [9] := by
  have hne : pNote.events ≠ [] := by simp [pNote]
  have h1 : (gm_audio_song_load_file stC8 (some "s.json") true "" pNote ioTrue 0).1 = 0 := by
    unfold gm_audio_song_load_file
    simp [stC8, pNote, song_load_events, initialState]
  have h := (song_load_failure_rollback stC8 "s.json" "" pNote ioTrue 0 rfl).2.2 hne h1
  refine ⟨rfl, hne, h1, h.1, h.2.trans ?_⟩
  rw [show (gm_audio_song_load_file stC8 (some "s.json") true "" pNote ioTrue 0).2.nextHandle
      = stC8.nextHandle by
    unfold gm_audio_song_load_file
    simp [stC8, pNote, song_load_events, initialState]]
  simp [stC8, initialState]

/-- Claim C9 (code bug): a note voice recorded in both the active-voice list
and the pending-stop list is scheduled for deferred deletion twice by
gm_audio_song_stop, so the deferred-delete set holds the same handle twice
and the next tick stops, uninitializes and frees it twice: a double free. -/
theorem song_stop_double_schedules_voice :
    stC9.activeVoices = [{ sound := some 100, id := 5 }] ∧
    stC9.pendingStops = [{ voice := some 100, endBeat := 2 }] ∧
    (gm_audio_song_stop stC9).2.1.pendingDelete = [100, 100] ∧
    (gm_audio_transport_tick (gm_audio_song_stop stC9).2.1 0 ioTrue 5).2.2 =
      [Action.stopSound 100, Action.uninitFree 100,
       Action.stopSound 100, Action.uninitFree 100] := by
  refine ⟨rfl, rfl, ?_, ?_⟩
  · unfold gm_audio_song_stop
    simp [stC9]
  · norm_num [gm_audio_song_stop, gm_audio_transport_tick, tickQueuePhase, tickSongPhase,
      processQueue, processStops, processEvents, songEventWhile, fireEvent,
      transport_get_beat_unlocked, eps, stC9, ioTrue, List.filterMap, List.flatMap]

theorem processQueue_seekStart_mem (beat : ℚ) (sounds : List (ℕ × Handle)) :
    ∀ (queue : List PendingLaunch) (hnd : Handle),
      Action.seekStart hnd ∈ (processQueue beat sounds queue).2 →
      ∃ id, lookupSound sounds id = some hnd := by
  intro queue
  induction queue with
  | nil => intro hnd hm; simp [processQueue] at hm
  | cons e rest ih =>
    intro hnd hm
    simp only [processQueue] at hm
    by_cases hd : e.targetBeat ≤ beat + eps
    · rw [if_pos hd] at hm
      rcases List.mem_append.mp hm with hm1 | hm2
      · cases hl : lookupSound sounds e.id with
        | some h2 =>
          rw [hl] at hm1
          simp only [List.mem_singleton, Action.seekStart.injEq] at hm1
          exact ⟨e.id, by rw [hl, hm1]⟩
        | none =>
          rw [hl] at hm1
          simp at hm1
      · exact ih hnd hm2
    · rw [if_neg hd] at hm
      exact ih hnd hm

theorem processQueue_kept_not_due (beat : ℚ) (sounds : List (ℕ × Handle)) :
    ∀ (queue : List PendingLaunch) (e : PendingLaunch),
      e ∈ (processQueue beat sounds queue).1 → e ∈ queue ∧ beat + eps < e.targetBeat := by
  intro queue
  induction queue with
  | nil => intro e hm; simp [processQueue] at hm
  | cons q rest ih =>
    intro e hm
    simp only [processQueue] at hm
    by_cases hd : q.targetBeat ≤ beat + eps
    · rw [if_pos hd] at hm
      obtain ⟨h1, h2⟩ := ih e hm
      exact ⟨List.mem_cons_of_mem _ h1, h2⟩
    · rw [if_neg hd] at hm
      rcases List.mem_cons.mp hm with hme | hm2
      · subst hme
        exact ⟨List.mem_cons_self _ _, not_le.mp hd⟩
      · obtain ⟨h1, h2⟩ := ih e hm2
        exact ⟨List.mem_cons_of_mem _ h1, h2⟩

/-- Claim C10: the queue scan of the tick seeks and starts only handles still
present in the playback table and drops every due entry, so a launch
cancelled by gm_audio_stop is harmless: when the tick reaches the stale
entry it finds no sound under that id, performs no seek or start, and
removes the entry, never touching the reclaimed handle. -/
theorem stale_queue_entry_harmless (beat : ℚ) (sounds : List (ℕ × Handle))
    (queue : List PendingLaunch) (hnd : Handle) (e : PendingLaunch)
    (hmem : Action.seekStart hnd ∈ (processQueue beat sounds queue).2)
    (hkept : e ∈ (processQueue beat sounds queue).1) :
    (∃ id, lookupSound sounds id = some hnd) ∧
    (e ∈ queue ∧ beat + eps < e.targetBeat) ∧
    ((gm_audio_stop stC10 3).2.1.sounds = [] ∧
     (gm_audio_stop stC10 3).2.1.queue = stC10.queue ∧
     (gm_audio_transport_tick (gm_audio_stop stC10 3).2.1 0 ioTrue 5).2.1.queue = [] ∧
     Action.seekStart 40 ∉ (gm_audio_transport_tick (gm_audio_stop stC10 3).2.1 0 ioTrue 5).2.2) := by
  refine ⟨processQueue_seekStart_mem beat sounds queue hnd hmem,
    processQueue_kept_not_due beat sounds queue e hkept, ?_, ?_, ?_, ?_⟩
  · unfold gm_audio_stop
    simp [stC10, lookupSound, eraseSound, initialState]
  · unfold gm_audio_stop
    simp [stC10, lookupSound, eraseSound, initialState]
  · norm_num [gm_audio_stop, gm_audio_transport_tick, tickQueuePhase, tickSongPhase,
      processQueue, processStops, processEvents, songEventWhile, fireEvent,
      transport_get_beat_unlocked, eps, stC10, ioTrue, lookupSound, eraseSound,
      initialState, songDefault]
  · rw [show (gm_audio_transport_tick (gm_audio_stop stC10 3).2.1 0 ioTrue 5).2.2
        = [Action.stopSound 40, Action.uninitFree 40] by
      norm_num [gm_audio_stop, gm_audio_transport_tick, tickQueuePhase, tickSongPhase,
        processQueue, processStops, processEvents, songEventWhile, fireEvent,
        transport_get_beat_unlocked, eps, stC10, ioTrue, lookupSound, eraseSound,
        initialState, songDefault, List.flatMap]]
    decide

theorem stale_queue_entry_harmless_witness :
    Action.seekStart 40 ∈
      (processQueue 5 [(3, 40)]
        [{ id := 3, targetBeat := 2 }, { id := 4, targetBeat := 99 }]).2 ∧
    ({ id := 4, targetBeat := 99 } : PendingLaunch) ∈
      (processQueue 5 [(3, 40)]
        [{ id := 3, targetBeat := 2 }, { id := 4, targetBeat := 99 }]).1 ∧
    (∃ id, lookupSound [(3, 40)] id = some 40) ∧
    ({ id := 4, targetBeat := 99 } : PendingLaunch) ∈
      ([{ id := 3, targetBeat := 2 }, { id := 4, targetBeat := 99 }] : List PendingLaunch) ∧
    (5 : ℚ) + eps < 99 := by
  have h1 : Action.seekStart 40 ∈
      (processQueue 5 [(3, 40)]
        [{ id := 3, targetBeat := 2 }, { id := 4, targetBeat := 99 }]).2 := by
    norm_num [processQueue, lookupSound, eps]
  have h2 : ({ id := 4, targetBeat := 99 } : PendingLaunch) ∈
      (processQueue 5 [(3, 40)]
        [{ id := 3, targetBeat := 2 }, { id := 4, targetBeat := 99 }]).1 := by
    norm_num [processQueue, lookupSound, eps]
  have h := stale_queue_entry_harmless 5 [(3, 40)]
    [{ id := 3, targetBeat := 2 }, { id := 4, targetBeat := 99 }] 40
    { id := 4, targetBeat := 99 } h1 h2
  exact ⟨h1, h2, h.1, h.2.1.1, h.2.1.2⟩

end GmAudio
